import Mathlib

/-!
Shallow embedding of the python-gelbooru client library
(`python_gelbooru/booru_async.py`, `python_gelbooru/classes.py`,
`python_gelbooru/exceptions.py`) and proofs about its behaviour.

Modelling conventions:
* Python strings are Lean `String`s (ASCII model for case/whitespace).
* Python exceptions become an explicit `PyErr` error type; a function that
  can raise returns `Except PyErr α`.
* Network traffic is made explicit: a client operation takes the decoded
  response the transport would deliver and returns the list of request URLs
  it issued together with its result, so "performs no network call" is the
  statement that the URL list is empty.
* Python truthiness of optional arguments (`if post_id:` treats `0`, `""`,
  `[]` and `None` alike) is modelled by explicit truthiness functions.
-/

deriving instance DecidableEq for Except

namespace Gelbooru

/-- Python exception values relevant to this library. -/
inductive PyErr where
  | valueError (msg : String)
  | gelbooruLimitError (msg : String)
  | indexError
deriving DecidableEq, Repr

/-- Characters removed by Python `str.strip()` with no argument
(ASCII whitespace). -/
def pyIsSpace (c : Char) : Bool :=
  c = ' ' || c = '\t' || c = '\n' || c = '\x0b' || c = '\x0c' || c = '\r'

def pyStripList (l : List Char) : List Char :=
  ((l.dropWhile pyIsSpace).reverse.dropWhile pyIsSpace).reverse

/-- Python `s.strip()`. -/
def pyStrip (s : String) : String := ⟨pyStripList s.data⟩

/-- Python `s.lstrip('-')`. -/
def pyLstripMinus (s : String) : String := ⟨s.data.dropWhile (· = '-')⟩

/-- Python `s.lower()` (ASCII model). -/
def pyLower (s : String) : String := ⟨s.data.map Char.toLower⟩

/-- The character map of Python `s.replace(' ', '_')`. -/
def underscoreChar (c : Char) : Char := if c = ' ' then '_' else c

/-- Python `s.replace(' ', '_')`. -/
def pyUnderscore (s : String) : String :=
  ⟨s.data.map underscoreChar⟩

/-- Splitting a character list on every occurrence of a separator
character, keeping empty pieces — the semantics of Python `s.split(sep)`
for a one-character separator. -/
def splitOnCharList (sep : Char) : List Char → List (List Char)
  | [] => [[]]
  | c :: rest =>
    if c = sep then [] :: splitOnCharList sep rest
    else
      match splitOnCharList sep rest with
      | [] => [[c]]
      | h :: t => (c :: h) :: t

/-- Python `s.split(sep)` for a one-character separator. -/
def pySplitChar (s : String) (sep : Char) : List String :=
  (splitOnCharList sep s.data).map (fun l => ⟨l⟩)

def isPrefixOfList : List Char → List Char → Bool
  | [], _ => true
  | _ :: _, [] => false
  | p :: ps, c :: cs => p = c && isPrefixOfList ps cs

/-- Fuelled worker for `pyReplace` (the fuel only bounds the recursion; it
is at least the length of the scanned list at every call). -/
def replaceFuel (pat repl : List Char) : Nat → List Char → List Char
  | 0, l => l
  | _ + 1, [] => []
  | fuel + 1, c :: cs =>
    if pat ≠ [] ∧ isPrefixOfList pat (c :: cs) then
      repl ++ replaceFuel pat repl fuel ((c :: cs).drop pat.length)
    else
      c :: replaceFuel pat repl fuel cs

/-- Python `s.replace(pat, repl)`: left-to-right replacement of
non-overlapping occurrences. -/
def pyReplace (s pat repl : String) : String :=
  ⟨replaceFuel pat.data repl.data s.data.length s.data⟩

/-- One include tag as normalised by `AsyncGelbooru._format_tags`:
`tag.strip().lower().replace(' ', '_')`. -/
def formatIncludeTag (t : String) : String :=
  pyUnderscore (pyLower (pyStrip t))

/-- One exclude tag as normalised by `AsyncGelbooru._format_tags`:
`'-' + tag.strip().lstrip('-').lower().replace(' ', '_')`. -/
def formatExcludeTag (t : String) : String :=
  "-" ++ pyUnderscore (pyLower (pyLstripMinus (pyStrip t)))

/-- `AsyncGelbooru._format_tags`.  `excludeTags = none` models the Python
default `exclude_tags=None`; the guard `if exclude_tags` is Python
truthiness, false for both `None` and the empty list. -/
def formatTags (includeTags : List String)
    (excludeTags : Option (List String) := none) : String :=
  let inc := String.intercalate "+" (includeTags.map formatIncludeTag)
  let exc :=
    if excludeTags.getD [] ≠ [] then
      String.intercalate "+" ((excludeTags.getD []).map formatExcludeTag)
    else ""
  inc ++ "+" ++ exc

/-- The record type of `classes.Tag`. -/
structure Tag where
  id : Int
  type : String
  name : String
  count : Int
  ambiguous : Bool
deriving DecidableEq, Repr

/-- The tuple of fields taking part in the generated dataclass `__eq__` /
`__hash__`.  In `classes.py` every field of `Tag` has the dataclass default
`compare=True` (the explicit `field(hash=True, compare=True)` on `id` does
not exclude the others), so the key is the tuple of all five fields. -/
def Tag.eqKey (t : Tag) : Int × String × String × Int × Bool :=
  (t.id, t.type, t.name, t.count, t.ambiguous)

/-- Dataclass-generated `Tag.__eq__`: compares the field tuples. -/
def Tag.pyEq (t1 t2 : Tag) : Bool := decide (t1.eqKey = t2.eqKey)

/-- Dataclass-generated `Tag.__hash__` hashes `eqKey`; two tags collide by
construction exactly when their keys agree, so we expose the key itself as
the hash input. -/
def Tag.hashKey (t : Tag) : Int × String × String × Int × Bool := t.eqKey

/-- `Tag.is_meta` property. -/
def Tag.is_meta (t : Tag) : Bool := t.type == "metadata"

/-- `Tag.__str__`. -/
def Tag.toStr (t : Tag) : String := t.name

/-- Digit-string value: `some n` iff the characters are one or more ASCII
digits. -/
def pyIntDigits (l : List Char) : Option Nat :=
  if l ≠ [] ∧ l.all Char.isDigit then
    some (l.foldl (fun a c => a * 10 + (c.toNat - 48)) 0)
  else none

/-- Python `int(s)` on a string: optional surrounding whitespace, optional
sign, one or more digits (digit-group underscores are not modelled). -/
def pyInt (s : String) : Except PyErr Int :=
  match (pyStrip s).data with
  | '-' :: rest =>
    match pyIntDigits rest with
    | some n => .ok (-(n : Int))
    | none => .error (.valueError ("invalid literal for int: " ++ s))
  | '+' :: rest =>
    match pyIntDigits rest with
    | some n => .ok (n : Int)
    | none => .error (.valueError ("invalid literal for int: " ++ s))
  | l =>
    match pyIntDigits l with
    | some n => .ok (n : Int)
    | none => .error (.valueError ("invalid literal for int: " ++ s))

/-- Naive/aware datetime value produced by `datetime.strptime`. -/
structure DateTime where
  year : Nat
  month : Nat
  day : Nat
  hour : Nat
  minute : Nat
  second : Nat
  tz : Option (Bool × Nat × Nat)
deriving DecidableEq, Repr

def weekdayNames : List String := ["Mon", "Tue", "Wed", "Thu", "Fri", "Sat", "Sun"]

def monthNames : List String :=
  ["Jan", "Feb", "Mar", "Apr", "May", "Jun",
   "Jul", "Aug", "Sep", "Oct", "Nov", "Dec"]

/-- Digits whose value lies in `[lo, hi]`. -/
def parseNatIn (s : String) (lo hi : Nat) : Option Nat :=
  match pyIntDigits s.data with
  | some n => if lo ≤ n ∧ n ≤ hi then some n else none
  | none => none

/-- `%z` offset: sign followed by four digits. -/
def parseTz (s : String) : Option (Bool × Nat × Nat) :=
  match s.data with
  | '+' :: rest =>
    if rest.length = 4 ∧ rest.all Char.isDigit then
      some (true, (pyIntDigits (rest.take 2)).getD 0, (pyIntDigits (rest.drop 2)).getD 0)
    else none
  | '-' :: rest =>
    if rest.length = 4 ∧ rest.all Char.isDigit then
      some (false, (pyIntDigits (rest.take 2)).getD 0, (pyIntDigits (rest.drop 2)).getD 0)
    else none
  | _ => none

/-- Modelled `datetime.strptime(s, "%a %b %d %H:%M:%S %z %Y")` as used for
post creation times: validates the fixed shape and field ranges, raising
`ValueError` otherwise. -/
def strptimePostFormat (s : String) : Except PyErr DateTime :=
  match pySplitChar s ' ' with
  | [wd, mon, day, time, tz, year] =>
    match weekdayNames.contains wd, monthNames.findIdx? (· == mon),
        parseNatIn day 1 31, pySplitChar time ':', parseTz tz, pyIntDigits year.data with
    | true, some mi, some d, [hh, mm, ss], some tzv, some y =>
      match parseNatIn hh 0 23, parseNatIn mm 0 59, parseNatIn ss 0 61 with
      | some h, some m, some sec => .ok ⟨y, mi + 1, d, h, m, sec, some tzv⟩
      | _, _, _ => .error (.valueError ("time data does not match format: " ++ s))
    | _, _, _, _, _, _ => .error (.valueError ("time data does not match format: " ++ s))
  | _ => .error (.valueError ("time data does not match format: " ++ s))

/-- Modelled `datetime.strptime(s, "%Y-%m-%d %H:%M")` as used for comment
creation times. -/
def strptimeCommentFormat (s : String) : Except PyErr DateTime :=
  match pySplitChar s ' ' with
  | [date, time] =>
    match pySplitChar date '-', pySplitChar time ':' with
    | [y, mo, d], [hh, mm] =>
      match pyIntDigits y.data, parseNatIn mo 1 12, parseNatIn d 1 31,
          parseNatIn hh 0 23, parseNatIn mm 0 59 with
      | some yy, some m, some dd, some h, some mi => .ok ⟨yy, m, dd, h, mi, 0, none⟩
      | _, _, _, _, _ => .error (.valueError ("time data does not match format: " ++ s))
    | _, _ => .error (.valueError ("time data does not match format: " ++ s))
  | _ => .error (.valueError ("time data does not match format: " ++ s))

/-- One decoded JSON record of the post endpoints, with the fields the
client reads.  String/integer typing follows what the mapping code in
`booru_async.py` assumes of each field. -/
structure PostDict where
  id : Int
  created_at : String
  score : Int
  width : Int
  height : Int
  md5 : String
  directory : String
  image : String
  rating : String
  source : String
  change : Int
  owner : String
  creator_id : Int
  parent_id : Int
  preview_height : Int
  preview_width : Int
  tags : String
  title : String
  has_notes : String
  has_comments : String
  file_url : String
  preview_url : String
  sample_url : String
  sample_height : Int
  sample_width : Int
  status : String
  post_locked : Int
  has_children : String
deriving DecidableEq, Repr

/-- The record type of `classes.Post` (the `data` member keeps the raw
decoded record, as in the source). -/
structure Post where
  data : PostDict
  id : Int
  created_at : DateTime
  score : Int
  width : Int
  height : Int
  md5 : String
  directory : String
  file_name : String
  rating : String
  source : String
  change : Int
  owner : String
  creator_id : Int
  parent_id : Int
  sample : Bool
  preview_height : Int
  preview_width : Int
  tags : List String
  title : String
  has_notes : Bool
  has_comments : Bool
  file_url : String
  preview_url : String
  sample_url : String
  sample_height : Int
  sample_width : Int
  status : String
  post_locked : Bool
  has_children : Bool
deriving DecidableEq, Repr

/-- The `Post(...)` construction shared by `search_posts` and `get_post`
in `booru_async.py`: field copies plus the per-field coercions
(`datetime.strptime`, `split(" ")`, `== "true"` string booleans,
`bool(post["post_locked"])` integer truthiness, `sample=bool(post)` which
is always true since the decoded record is a non-empty dict). -/
def mkPostFromDict (post : PostDict) : Except PyErr Post := do
  let ca ← strptimePostFormat post.created_at
  .ok { data := post, id := post.id, created_at := ca, score := post.score,
        width := post.width, height := post.height, md5 := post.md5,
        directory := post.directory, file_name := post.image,
        rating := post.rating, source := post.source, change := post.change,
        owner := post.owner, creator_id := post.creator_id,
        parent_id := post.parent_id,
        sample := true,
        preview_height := post.preview_height,
        preview_width := post.preview_width,
        tags := pySplitChar post.tags ' ', title := post.title,
        has_notes := post.has_notes == "true",
        has_comments := post.has_comments == "true",
        file_url := post.file_url, preview_url := post.preview_url,
        sample_url := post.sample_url, sample_height := post.sample_height,
        sample_width := post.sample_width, status := post.status,
        post_locked := post.post_locked ≠ 0,
        has_children := post.has_children == "true" }

/-- One `<comment>` element as decoded by `xmltodict`: the `@`-prefixed
attributes the client reads, all strings. -/
structure CommentDict where
  created_at : String
  post_id : String
  body : String
  creator : String
  id : String
  creator_id : String
deriving DecidableEq, Repr

/-- The record type of `classes.Comment`. -/
structure Comment where
  data : CommentDict
  created_at : DateTime
  post_id : Int
  content : String
  author : String
  comment_id : Int
  author_id : Int
deriving DecidableEq, Repr

/-- The `Comment(...)` construction in `get_post_comments`:
`int(...)` coercions on the id attributes, with
`int(comment['@creator_id']) if comment['@creator_id'] else 0`. -/
def mkCommentFromDict (c : CommentDict) : Except PyErr Comment := do
  let ca ← strptimeCommentFormat c.created_at
  let pid ← pyInt c.post_id
  let cid ← pyInt c.id
  let aid ← if c.creator_id ≠ "" then pyInt c.creator_id else .ok 0
  .ok { data := c, created_at := ca, post_id := pid, content := c.body,
        author := c.creator, comment_id := cid, author_id := aid }

/-- One decoded JSON record of the tag endpoint; the client feeds every
field it converts through `int(...)`, so they are strings here. -/
structure TagDict where
  id : String
  name : String
  type : String
  count : String
  ambiguous : String
deriving DecidableEq, Repr

/-- The `Tag(...)` construction in `search_tags` / `get_tag`:
`int` coercions and `bool(int(tag['ambiguous']))`. -/
def mkTagFromDict (t : TagDict) : Except PyErr Tag := do
  let i ← pyInt t.id
  let c ← pyInt t.count
  let a ← pyInt t.ambiguous
  .ok { id := i, name := t.name, type := t.type, count := c,
        ambiguous := a ≠ 0 }

/-- Left-to-right mapping of a fallible constructor over a decoded list,
stopping at the first raised exception — the evaluation order of the
Python list/tuple comprehensions in `booru_async.py`. -/
def mapMExcept {α β : Type} (f : α → Except PyErr β) : List α → Except PyErr (List β)
  | [] => .ok []
  | a :: as => do
    let b ← f a
    let bs ← mapMExcept f as
    .ok (b :: bs)

/-- `AsyncGelbooru.BASE_API_URL`. -/
def BASE_API_URL : String := "https://gelbooru.com/index.php?page=dapi&q=index&json=1"

/-- Python truthiness of an optional integer argument: `None` and `0` are
falsy. -/
def optIntTruthy : Option Int → Bool
  | none => false
  | some i => i ≠ 0

/-- Python truthiness of an optional string argument: `None` and `""` are
falsy. -/
def optStrTruthy : Option String → Bool
  | none => false
  | some s => s ≠ ""

/-- Python truthiness of an optional list argument: `None` and `[]` are
falsy. -/
def optListTruthy : Option (List String) → Bool
  | none => false
  | some l => l ≠ []

/-- `AsyncGelbooru.search_posts`.  `resp` is the decoded `['post']` list the
transport would deliver for the built URL; the first component of the
result collects the URLs actually requested. -/
def searchPosts (selfUrl : String) (tags : List String)
    (exclude_tags : Option (List String)) (limit : Int) (page_number : Int)
    (random : Bool) (resp : List PostDict) :
    List String × Except PyErr (List Post) :=
  if limit > 1000 then
    ([], .error (.gelbooruLimitError "Gelbooru can only return 1000 items in a single request"))
  else
    let tags := if random then tags ++ ["sort:random"] else tags
    let url := selfUrl ++ "&tags=" ++ formatTags tags exclude_tags
        ++ "&limit=" ++ toString limit ++ "&s=post"
    let url := if page_number ≠ 0 then url ++ "&pid=" ++ toString page_number else url
    ([url], mapMExcept mkPostFromDict resp)

/-- `get_post` returns either the bare `Post` (found case: `return res`) or
a tuple of posts (the md5-mismatch case: `return ()`). -/
inductive GetPostReturn where
  | tuple (posts : List Post)
  | single (post : Post)
deriving DecidableEq, Repr

/-- `AsyncGelbooru.get_post`.  The `(post_id and md5) or (not post_id and
not md5)` guard uses Python truthiness; `resp` is the decoded `['post']`
list, of which element `[0]` is taken (raising `IndexError` when empty). -/
def getPost (selfUrl : String) (post_id : Option Int) (md5 : Option String)
    (resp : List PostDict) : List String × Except PyErr GetPostReturn :=
  if (optIntTruthy post_id && optStrTruthy md5)
      || (!optIntTruthy post_id && !optStrTruthy md5) then
    ([], .error (.valueError "Must specify a post id or an md5, and not both."))
  else
    let url :=
      if optStrTruthy md5 then selfUrl ++ "&tags=md5:" ++ md5.getD ""
      else selfUrl ++ "&id=" ++ toString (post_id.getD 0)
    let url := url ++ "&s=post"
    match resp with
    | [] => ([url], .error .indexError)
    | post :: _ =>
      ([url],
        do
          let res ← mkPostFromDict post
          if optStrTruthy md5 then
            if res.md5 ≠ md5.getD "" then .ok (.tuple [])
            else .ok (.single res)
          else .ok (.single res))

/-- The value of `xmltodict.parse(xml)['comments'].get('comment')`: absent,
a bare element (the single-comment quirk of the remote XML), or a list of
elements. -/
inductive XmlCommentField where
  | absent
  | single (c : CommentDict)
  | list (cs : List CommentDict)
deriving DecidableEq, Repr

/-- `AsyncGelbooru.get_post_comments`.  `if parsed:` is falsy for `None`
and for an empty list; a bare element is wrapped into a one-element list
(`parsed if type(parsed) == list else [parsed]`). -/
def getPostComments (selfUrl : String) (post : Post) (resp : XmlCommentField) :
    List String × Except PyErr (List Comment) :=
  let url := pyReplace selfUrl "&json=1" "" ++ "&s=comment&post_id=" ++ toString post.id
  let normalized : List CommentDict :=
    match resp with
    | .absent => []
    | .single c => [c]
    | .list cs => cs
  ([url], if normalized = [] then .ok [] else mapMExcept mkCommentFromDict normalized)

/-- `AsyncGelbooru.search_tags`.  All validation happens before the single
GET; the URL accumulates the truthy parameters in source order (note that
`after_id` is appended under `is not None`, not truthiness). -/
def searchTags (selfUrl : String) (names : Option (List String)) (limit : Int)
    (name_pattern : Option String) (after_id : Option Int)
    (order : Option String) (order_by : Option String)
    (resp : List TagDict) : List String × Except PyErr (List Tag) :=
  let urlE : Except PyErr String :=
    if optListTruthy names && optStrTruthy name_pattern then
      .error (.valueError "Must have one of names and name pattern")
    else if optStrTruthy name_pattern && optIntTruthy after_id then
      .error (.valueError "For some odd reason, name patterns and after ids do not work together")
    else
      let url := selfUrl ++ "&s=tag"
      let url := if optListTruthy names then
          url ++ "&names=" ++ formatTags (names.getD []) none else url
      let url := if optStrTruthy name_pattern then
          url ++ "&name_pattern=" ++ name_pattern.getD "" else url
      let url := if after_id ≠ none then
          url ++ "&after_id=" ++ toString (after_id.getD 0) else url
      if optStrTruthy order_by
          && !(["date", "count", "name"] : List String).contains (order_by.getD "") then
        .error (.valueError "If ordering of tags specified, it must be either date, count, or name")
      else
        let url := if optStrTruthy order_by then url ++ "&orderby=" ++ order_by.getD "" else url
        if optStrTruthy order
            && !(["asc", "desc"] : List String).contains (pyLower (order.getD "")) then
          .error (.valueError ("Order can only be asc or desc. " ++ order.getD "" ++ " was received."))
        else
          let url := if optStrTruthy order then url ++ "&order=" ++ order.getD "" else url
          .ok (url ++ "&limit=" ++ toString limit)
  match urlE with
  | .ok url => ([url], mapMExcept mkTagFromDict resp)
  | .error e => ([], .error e)

/-- Index of the last occurrence of `c` in `l`. -/
def lastIdxOf (l : List Char) (c : Char) : Option Nat :=
  (l.reverse.findIdx? (· = c)).map (fun i => l.length - 1 - i)

/-- `os.path.splitext(p)[1]` (posix model): the extension starts at the
last dot, provided some character of the basename strictly before that dot
is not itself a dot. -/
def splitextExt (p : String) : String :=
  let l := p.data
  let sepIdx : Int := match lastIdxOf l '/' with | some i => (i : Int) | none => -1
  let dotIdx : Int := match lastIdxOf l '.' with | some i => (i : Int) | none => -1
  if dotIdx > sepIdx then
    let between := (l.drop (sepIdx + 1).toNat).take (dotIdx - sepIdx - 1).toNat
    if between.any (· ≠ '.') then ⟨l.drop dotIdx.toNat⟩ else ""
  else ""

/-- `Post.extension` property: `os.path.splitext(self.file_name)[1]`. -/
def Post.extension (p : Post) : String := splitextExt p.file_name

/-- A destination written to by a download call. -/
inductive WriteDest where
  | toFile (path : String)
  | toStream
deriving DecidableEq, Repr

/-- `Post.async_download`, with the fetched bytes supplied and the download
reduced to its observable writes (destination, bytes).  Mirrors the source
control flow: after the fetch, the branch
`if not path and not stream: path = self.file_name` rebinds `path` and then
falls through — the file write lives only in the `elif path:` branch. -/
def asyncDownload (post : Post) (path : Option String) (stream : Bool)
    (binary : List Nat) : Except PyErr (List (WriteDest × List Nat)) :=
  if optStrTruthy path && stream then
    .error (.valueError "Only one of path and stream may be provided")
  else
    if !optStrTruthy path && !stream then
      .ok []
    else if optStrTruthy path then
      let p := path.getD ""
      let p := if splitextExt p = "" then p ++ post.extension else p
      .ok [(.toFile p, binary)]
    else
      .ok [(.toStream, binary)]

/-- `Post.sync_download`: the defaulting of `path` to `self.file_name`
happens before the write dispatch, so the no-destination case writes the
bytes to `self.file_name`. -/
def syncDownload (post : Post) (path : Option String) (stream : Bool)
    (binary : List Nat) : Except PyErr (List (WriteDest × List Nat)) :=
  if optStrTruthy path && stream then
    .error (.valueError "Only one of path and stream may be provided")
  else
    let p : String :=
      if !optStrTruthy path && !stream then post.file_name
      else if optStrTruthy path then
        (let q := path.getD ""
         if splitextExt q = "" then q ++ post.extension else q)
      else ""
    if stream then .ok [(.toStream, binary)]
    else .ok [(.toFile p, binary)]

/-- Whether an `Except` computation succeeded. -/
def exceptIsOk {α : Type} : Except PyErr α → Bool
  | .ok _ => true
  | .error _ => false

theorem except_ok_bind {α β : Type} (a : α) (f : α → Except PyErr β) :
    (Except.ok a >>= f) = f a := rfl

theorem except_error_bind {α β : Type} (e : PyErr) (f : α → Except PyErr β) :
    ((Except.error e : Except PyErr α) >>= f) = Except.error e := rfl

theorem except_pure_eq {α : Type} (a : α) :
    (pure a : Except PyErr α) = Except.ok a := rfl

/-- A concrete well-formed decoded post record, used to evaluate the
client operations at concrete inputs. -/
def samplePostDict : PostDict :=
  { id := 7, created_at := "Mon Jan 01 00:00:00 +0000 2021", score := 3,
    width := 100, height := 50, md5 := "abc", directory := "aa/bb",
    image := "pic.png", rating := "safe", source := "", change := 0,
    owner := "gelbooru", creator_id := 1, parent_id := 0,
    preview_height := 10, preview_width := 20, tags := "blue_sky cat",
    title := "", has_notes := "false", has_comments := "false",
    file_url := "https://img.gelbooru.com/aa/bb/pic.png",
    preview_url := "", sample_url := "", sample_height := 0,
    sample_width := 0, status := "active", post_locked := 0,
    has_children := "false" }

/-- The `Post` the mapper builds from `samplePostDict`. -/
def samplePost : Post :=
  { data := samplePostDict, id := 7,
    created_at := ⟨2021, 1, 1, 0, 0, 0, some (true, 0, 0)⟩, score := 3,
    width := 100, height := 50, md5 := "abc", directory := "aa/bb",
    file_name := "pic.png", rating := "safe", source := "", change := 0,
    owner := "gelbooru", creator_id := 1, parent_id := 0, sample := true,
    preview_height := 10, preview_width := 20, tags := ["blue_sky", "cat"],
    title := "", has_notes := false, has_comments := false,
    file_url := "https://img.gelbooru.com/aa/bb/pic.png",
    preview_url := "", sample_url := "", sample_height := 0,
    sample_width := 0, status := "active", post_locked := false,
    has_children := false }

/-- A concrete decoded comment element. -/
def sampleCommentDict : CommentDict :=
  { created_at := "2021-01-01 12:30", post_id := "7", body := "nice",
    creator := "Anonymous", id := "99", creator_id := "" }

/-- The `Comment` the mapper builds from `sampleCommentDict` (the empty
`creator_id` defaults to 0). -/
def sampleComment : Comment :=
  { data := sampleCommentDict, created_at := ⟨2021, 1, 1, 12, 30, 0, none⟩,
    post_id := 7, content := "nice", author := "Anonymous",
    comment_id := 99, author_id := 0 }

/-- A concrete decoded tag record. -/
def sampleTagDict : TagDict :=
  { id := "262", name := "yuyu_(touhou)", type := "character",
    count := "150", ambiguous := "0" }

/-- The `Tag` the mapper builds from `sampleTagDict`. -/
def sampleTag : Tag :=
  { id := 262, type := "character", name := "yuyu_(touhou)",
    count := 150, ambiguous := false }

theorem string_data_append (a b : String) : (a ++ b).data = a.data ++ b.data := by
  cases a; cases b; rfl

theorem string_append_empty (a : String) : a ++ "" = a := by
  apply String.ext
  rw [string_data_append]
  simp

theorem char_ne_of_toNat_ne {c d : Char} (h : c.toNat ≠ d.toNat) : c ≠ d :=
  fun he => h (congrArg Char.toNat he)

theorem toNat_ofNat_valid (n : Nat) (h : n.isValidChar) : (Char.ofNat n).toNat = n := by
  rw [Char.ofNat, dif_pos h]
  rfl

/-- `Char.toLower` either fixes its argument or sends an upper-case basic
latin letter into `[97, 122]`. -/
theorem charToLower_cases (c : Char) :
    Char.toLower c = c ∨
      (97 ≤ (Char.toLower c).toNat ∧ (Char.toLower c).toNat ≤ 122) := by
  unfold Char.toLower
  by_cases h : c.toNat ≥ 65 ∧ c.toNat ≤ 90
  · right
    rw [if_pos h]
    have hv : (c.toNat + 32).isValidChar := Or.inl (by omega)
    rw [toNat_ofNat_valid _ hv]
    omega
  · left
    rw [if_neg h]

theorem charToLower_of_not_upper {c : Char} (h : ¬(c.toNat ≥ 65 ∧ c.toNat ≤ 90)) :
    Char.toLower c = c := by
  unfold Char.toLower
  rw [if_neg h]

theorem charToLower_idem (c : Char) :
    Char.toLower (Char.toLower c) = Char.toLower c := by
  rcases charToLower_cases c with h | h
  · rw [h, h]
  · exact charToLower_of_not_upper (by omega)

theorem charToLower_ne_minus {c : Char} (h : c ≠ '-') : Char.toLower c ≠ '-' := by
  rcases charToLower_cases c with h' | h'
  · rw [h']; exact h
  · apply char_ne_of_toNat_ne
    have hm : ('-').toNat = 45 := by decide
    omega

theorem pyIsSpace_of_ge97 {d : Char} (h : 97 ≤ d.toNat) : pyIsSpace d = false := by
  have h1 : d ≠ ' ' := fun he => absurd (he ▸ h) (by decide)
  have h2 : d ≠ '\t' := fun he => absurd (he ▸ h) (by decide)
  have h3 : d ≠ '\n' := fun he => absurd (he ▸ h) (by decide)
  have h4 : d ≠ '\x0b' := fun he => absurd (he ▸ h) (by decide)
  have h5 : d ≠ '\x0c' := fun he => absurd (he ▸ h) (by decide)
  have h6 : d ≠ '\r' := fun he => absurd (he ▸ h) (by decide)
  simp [pyIsSpace, h1, h2, h3, h4, h5, h6]

theorem pyIsSpace_toLower {c : Char} (h : pyIsSpace c = false) :
    pyIsSpace (Char.toLower c) = false := by
  rcases charToLower_cases c with h' | h'
  · rw [h']; exact h
  · exact pyIsSpace_of_ge97 h'.1

theorem charToLower_ne_space {c : Char} (h : c ≠ ' ') : Char.toLower c ≠ ' ' := by
  rcases charToLower_cases c with h' | h'
  · rw [h']; exact h
  · apply char_ne_of_toNat_ne
    have hs : (' ').toNat = 32 := by decide
    omega

theorem underscoreChar_ne_space (c : Char) : underscoreChar c ≠ ' ' := by
  unfold underscoreChar
  by_cases h : c = ' '
  · rw [if_pos h]; decide
  · rw [if_neg h]; exact h

theorem underscoreChar_ne_minus {c : Char} (h : c ≠ '-') : underscoreChar c ≠ '-' := by
  unfold underscoreChar
  by_cases h' : c = ' '
  · rw [if_pos h']; decide
  · rw [if_neg h']; exact h

theorem underscoreChar_idem (c : Char) :
    underscoreChar (underscoreChar c) = underscoreChar c := by
  conv_lhs => rw [underscoreChar]
  rw [if_neg (underscoreChar_ne_space c)]

theorem pyIsSpace_underscoreChar {c : Char} (h : pyIsSpace c = false) :
    pyIsSpace (underscoreChar c) = false := by
  unfold underscoreChar
  by_cases h' : c = ' '
  · rw [if_pos h']; decide
  · rw [if_neg h']; exact h

/-- The normalised characters produced by the tag formatter are fixed by a
further `lower()` pass. -/
theorem charNorm_lower_fixed (c : Char) :
    Char.toLower (underscoreChar (Char.toLower c)) = underscoreChar (Char.toLower c) := by
  by_cases h : Char.toLower c = ' '
  · rw [h]; decide
  · rw [underscoreChar, if_neg h, charToLower_idem]

theorem takeWhile_nil_of_head? {p : Char → Bool} {l : List Char}
    (h : ∀ c, l.head? = some c → p c = false) : l.takeWhile p = [] := by
  cases l with
  | nil => rfl
  | cons a t =>
    have := h a rfl
    rw [List.takeWhile_cons, this]
    simp

theorem dropWhile_eq_self_of_head? {p : Char → Bool} {l : List Char}
    (h : ∀ c, l.head? = some c → p c = false) : l.dropWhile p = l := by
  cases l with
  | nil => rfl
  | cons a t =>
    have := h a rfl
    rw [List.dropWhile_cons, this]
    simp

/-- The head of a stripped string is not whitespace. -/
theorem pyStripList_head_not_space (l : List Char) :
    ∀ c, (pyStripList l).head? = some c → pyIsSpace c = false := by
  intro c h
  unfold pyStripList at h
  set X := l.dropWhile pyIsSpace with hX
  have hpre : ((X.reverse.dropWhile pyIsSpace).reverse : List Char) <+: X := by
    rw [← List.reverse_suffix]
    simp only [List.reverse_reverse]
    exact List.dropWhile_suffix _
  obtain ⟨t, ht⟩ := hpre
  have hhead : X.head? = some c := by
    rw [← ht, List.head?_append, h]
    rfl
  have := List.head?_dropWhile_not pyIsSpace l
  rw [← hX, hhead] at this
  exact this

/-- The last character of a stripped string is not whitespace. -/
theorem pyStripList_getLast_not_space (l : List Char) :
    ∀ c, (pyStripList l).getLast? = some c → pyIsSpace c = false := by
  intro c h
  unfold pyStripList at h
  rw [List.getLast?_reverse] at h
  have := List.head?_dropWhile_not pyIsSpace ((l.dropWhile pyIsSpace).reverse)
  rw [h] at this
  exact this

/-- A list whose ends are not whitespace is fixed by `strip`. -/
theorem pyStripList_eq_self {l : List Char}
    (hh : ∀ c, l.head? = some c → pyIsSpace c = false)
    (hl : ∀ c, l.getLast? = some c → pyIsSpace c = false) :
    pyStripList l = l := by
  unfold pyStripList
  rw [dropWhile_eq_self_of_head? hh]
  have : l.reverse.dropWhile pyIsSpace = l.reverse := by
    apply dropWhile_eq_self_of_head?
    intro c hc
    rw [List.head?_reverse] at hc
    exact hl c hc
  rw [this, List.reverse_reverse]

/-- The per-character normalisation applied by the tag formatter. -/
theorem charNorm_idem (c : Char) :
    underscoreChar (Char.toLower (underscoreChar (Char.toLower c))) =
      underscoreChar (Char.toLower c) := by
  rw [charNorm_lower_fixed, underscoreChar_idem]

theorem pyIsSpace_charNorm {c : Char} (h : pyIsSpace c = false) :
    pyIsSpace (underscoreChar (Char.toLower c)) = false :=
  pyIsSpace_underscoreChar (pyIsSpace_toLower h)

/-- Character-list view of `formatIncludeTag`. -/
theorem formatIncludeTag_data (t : String) :
    (formatIncludeTag t).data =
      (pyStripList t.data).map (fun c => underscoreChar (Char.toLower c)) := by
  show ((pyStripList t.data).map Char.toLower).map underscoreChar = _
  rw [List.map_map]
  rfl

/-- Character-list view of `formatExcludeTag`. -/
theorem formatExcludeTag_data (t : String) :
    (formatExcludeTag t).data =
      '-' :: ((pyStripList t.data).dropWhile (· = '-')).map
        (fun c => underscoreChar (Char.toLower c)) := by
  rw [formatExcludeTag, string_data_append]
  show ['-'] ++ (((pyStripList t.data).dropWhile (· = '-')).map Char.toLower).map underscoreChar = _
  rw [List.map_map, List.singleton_append]
  rfl

/-- The normalised tail of an exclude tag never starts with a minus. -/
theorem exclude_tail_head_not_minus (t : String) :
    ∀ c, (((pyStripList t.data).dropWhile (· = '-')).map
        (fun c => underscoreChar (Char.toLower c))).head? = some c → c ≠ '-' := by
  intro c h
  rw [List.head?_map] at h
  cases h0 : ((pyStripList t.data).dropWhile (· = '-')).head? with
  | none => rw [h0] at h; exact absurd h (by simp)
  | some c0 =>
    rw [h0] at h
    have hne : c0 ≠ '-' := by
      have := List.head?_dropWhile_not (fun c => decide (c = '-')) (pyStripList t.data)
      rw [h0] at this
      simpa using this
    have hc : c = underscoreChar (Char.toLower c0) := by
      simpa using h.symm
    rw [hc]
    exact underscoreChar_ne_minus (charToLower_ne_minus hne)

/-- The last character surviving `dropWhile` is the last element of the original list. -/
theorem getLast?_dropWhile_of {p : Char → Bool} {l : List Char} :
    ∀ c, (l.dropWhile p).getLast? = some c → l.getLast? = some c := by
  intro c h
  obtain ⟨t', ht⟩ := List.dropWhile_suffix (l := l) p
  rw [← ht, List.getLast?_append, h]
  rfl

theorem formatTags_join_none (incl : List String) :
    formatTags incl none = String.intercalate "+" (incl.map formatIncludeTag) ++ "+" := by
  show _ ++ "+" ++ "" = _
  rw [string_append_empty]

theorem formatTags_join_empty (incl : List String) :
    formatTags incl (some []) =
      String.intercalate "+" (incl.map formatIncludeTag) ++ "+" := by
  show _ ++ "+" ++ "" = _
  rw [string_append_empty]

theorem formatTags_join_some (incl excl : List String) (h : excl ≠ []) :
    formatTags incl (some excl) =
      String.intercalate "+" (incl.map formatIncludeTag) ++ "+" ++
        String.intercalate "+" (excl.map formatExcludeTag) := by
  simp only [formatTags, Option.getD_some, if_pos h]

/-- Exclude entries carry exactly one leading minus. -/
theorem formatExcludeTag_one_minus (t : String) :
    ((formatExcludeTag t).data.takeWhile (· = '-')).length = 1 := by
  rw [formatExcludeTag_data, List.takeWhile_cons]
  have h1 : (decide ('-' = '-')) = true := by decide
  rw [h1]
  have h2 : (((pyStripList t.data).dropWhile (· = '-')).map
      (fun c => underscoreChar (Char.toLower c))).takeWhile (· = '-') = [] := by
    apply takeWhile_nil_of_head?
    intro c hc
    have := exclude_tail_head_not_minus t c hc
    simpa using this
  simp [h2]

/-- Normalising an already-normalised exclude tag changes nothing. -/
theorem formatExcludeTag_idem (t : String) :
    formatExcludeTag (formatExcludeTag t) = formatExcludeTag t := by
  apply String.ext
  rw [formatExcludeTag_data, formatExcludeTag_data]
  set u := pyStripList t.data with hu
  set v := u.dropWhile (· = '-') with hv
  set r := v.map (fun c => underscoreChar (Char.toLower c)) with hr
  have hstrip : pyStripList ('-' :: r) = '-' :: r := by
    apply pyStripList_eq_self
    · intro c hc
      simp at hc
      rw [← hc]
      decide
    · intro c hc
      rw [show ('-' :: r) = ['-'] ++ r from rfl, List.getLast?_append] at hc
      cases h0 : r.getLast? with
      | none =>
        rw [h0] at hc
        have hcm : c = '-' := by simpa using hc.symm
        rw [hcm]
        decide
      | some y =>
        rw [h0] at hc
        have hyc : y = c := by simpa using hc
        rw [hr, List.getLast?_map] at h0
        cases h1 : v.getLast? with
        | none => rw [h1] at h0; exact absurd h0 (by simp)
        | some c0 =>
          rw [h1] at h0
          have hc0 : u.getLast? = some c0 := getLast?_dropWhile_of c0 (hv ▸ h1)
          have hsp : pyIsSpace c0 = false := pyStripList_getLast_not_space t.data c0 (hu ▸ hc0)
          have hy : y = underscoreChar (Char.toLower c0) := by simpa using h0.symm
          rw [← hyc, hy]
          exact pyIsSpace_charNorm hsp
  rw [hstrip]
  have hdrop : ('-' :: r).dropWhile (· = '-') = r := by
    rw [List.dropWhile_cons]
    have : (decide ('-' = '-')) = true := by decide
    rw [this]
    simp only [if_true]
    apply dropWhile_eq_self_of_head?
    intro c hc
    have := exclude_tail_head_not_minus t c (hr ▸ hc)
    simpa using this
  rw [hdrop, hr, List.map_map]
  congr 1
  apply List.map_congr_left
  intro a _
  simp only [Function.comp_apply]
  exact charNorm_idem a

/-- The include normaliser is fixed by a further `lower()` pass. -/
theorem formatIncludeTag_lower_fixed (t : String) :
    pyLower (formatIncludeTag t) = formatIncludeTag t := by
  apply String.ext
  show (formatIncludeTag t).data.map Char.toLower = (formatIncludeTag t).data
  rw [formatIncludeTag_data, List.map_map]
  apply List.map_congr_left
  intro a _
  exact charNorm_lower_fixed a

/-- The exclude normaliser is fixed by a further `lower()` pass. -/
theorem formatExcludeTag_lower_fixed (t : String) :
    pyLower (formatExcludeTag t) = formatExcludeTag t := by
  apply String.ext
  show (formatExcludeTag t).data.map Char.toLower = (formatExcludeTag t).data
  rw [formatExcludeTag_data]
  rw [List.map_cons]
  have hm : Char.toLower '-' = '-' := by decide
  rw [hm, List.map_map]
  congr 1
  apply List.map_congr_left
  intro a _
  exact charNorm_lower_fixed a

/-- No space survives include normalisation. -/
theorem formatIncludeTag_no_space (t : String) :
    ' ' ∉ (formatIncludeTag t).data := by
  rw [formatIncludeTag_data]
  intro h
  obtain ⟨c, _, hc⟩ := List.mem_map.mp h
  exact underscoreChar_ne_space (Char.toLower c) hc

/-- No space survives exclude normalisation. -/
theorem formatExcludeTag_no_space (t : String) :
    ' ' ∉ (formatExcludeTag t).data := by
  rw [formatExcludeTag_data]
  intro h
  rcases List.mem_cons.mp h with h' | h'
  · exact absurd h' (by decide)
  · obtain ⟨c, _, hc⟩ := List.mem_map.mp h'
    exact underscoreChar_ne_space (Char.toLower c) hc

/-- Include entries carry no surrounding whitespace. -/
theorem formatIncludeTag_strip_fixed (t : String) :
    pyStrip (formatIncludeTag t) = formatIncludeTag t := by
  apply String.ext
  show pyStripList (formatIncludeTag t).data = (formatIncludeTag t).data
  rw [formatIncludeTag_data]
  apply pyStripList_eq_self
  · intro c hc
    rw [List.head?_map] at hc
    cases h0 : (pyStripList t.data).head? with
    | none => rw [h0] at hc; exact absurd hc (by simp)
    | some c0 =>
      rw [h0] at hc
      have hsp := pyStripList_head_not_space t.data c0 h0
      have : c = underscoreChar (Char.toLower c0) := by simpa using hc.symm
      rw [this]
      exact pyIsSpace_charNorm hsp
  · intro c hc
    rw [List.getLast?_map] at hc
    cases h0 : (pyStripList t.data).getLast? with
    | none => rw [h0] at hc; exact absurd hc (by simp)
    | some c0 =>
      rw [h0] at hc
      have hsp := pyStripList_getLast_not_space t.data c0 h0
      have : c = underscoreChar (Char.toLower c0) := by simpa using hc.symm
      rw [this]
      exact pyIsSpace_charNorm hsp

/-- C1 (counterexample): two `Tag` values sharing `id = 1` but differing
only in `name` are not equal under the dataclass-generated equality, so
equality is not decided by `id` alone. -/
theorem c1_tag_eq_not_id_only_counterexample :
    Tag.pyEq ⟨1, "general", "a", 0, false⟩ ⟨1, "general", "b", 0, false⟩ = false := by
  decide

/-- C1 (amended): every field of `Tag` carries the dataclass default
`compare=True`, so equality and the hash input are decided by all five
fields: two tags compare equal exactly when they agree on `id`, `type`,
`name`, `count` and `ambiguous`, and their hash inputs then coincide. -/
theorem c1_tag_eq_all_fields (t1 t2 : Tag) :
    (Tag.pyEq t1 t2 = true ↔ t1 = t2) ∧
    (Tag.hashKey t1 = Tag.hashKey t2 ↔ t1 = t2) := by
  obtain ⟨a1, b1, c1, d1, e1⟩ := t1
  obtain ⟨a2, b2, c2, d2, e2⟩ := t2
  simp [Tag.pyEq, Tag.eqKey, Tag.hashKey]

/-- C2 (code bug): with no destination given, `sync_download` writes the
fetched bytes to `self.file_name`, while `async_download` — whose
docstring promises the same defaulting — performs no write at all: its
`if not path and not stream:` branch rebinds `path` and falls through,
and the file write lives only in the `elif path:` branch. -/
theorem c2_download_default_divergence (post : Post) (binary : List Nat) :
    syncDownload post none false binary = .ok [(.toFile post.file_name, binary)] ∧
    asyncDownload post none false binary = .ok [] := by
  constructor <;> simp [syncDownload, asyncDownload, optStrTruthy]

/-- C4: `search_posts` with `limit > 1000` raises `GelbooruLimitError`
synchronously and issues no request. -/
theorem c4_search_posts_limit (selfUrl : String) (tags : List String)
    (exclude_tags : Option (List String)) (limit : Int) (page_number : Int)
    (random : Bool) (resp : List PostDict) (h : limit > 1000) :
    searchPosts selfUrl tags exclude_tags limit page_number random resp =
      ([], .error (.gelbooruLimitError
        "Gelbooru can only return 1000 items in a single request")) := by
  simp [searchPosts, h]

theorem c4_search_posts_limit_witness :
    searchPosts BASE_API_URL ["cat"] none 1001 0 false [] =
      ([], .error (.gelbooruLimitError
        "Gelbooru can only return 1000 items in a single request")) :=
  c4_search_posts_limit BASE_API_URL ["cat"] none 1001 0 false [] (by decide)

/-- C7 (counterexample): supplying BOTH identifiers, `post_id = 0`
together with `md5 = "abc"`, does not raise: truthiness lets the falsy
`post_id = 0` slip past the both-supplied check, a request is issued and
the call succeeds. -/
theorem c7_get_post_both_supplied_counterexample :
    (getPost BASE_API_URL (some 0) (some "abc") [samplePostDict]).fst ≠ [] ∧
    exceptIsOk (getPost BASE_API_URL (some 0) (some "abc") [samplePostDict]).snd = true := by
  decide

/-- C7 (amended): `get_post` raises `ValueError` before any request when
its identifier arguments are both truthy or both falsy (absent, `0`, or
`""`); a falsy identifier supplied alongside a truthy one is treated as
absent, so such a call does not raise. -/
theorem c7_get_post_validation (selfUrl : String) (post_id : Option Int)
    (md5 : Option String) (resp : List PostDict)
    (h : ((optIntTruthy post_id && optStrTruthy md5)
        || (!optIntTruthy post_id && !optStrTruthy md5)) = true) :
    getPost selfUrl post_id md5 resp =
      ([], .error (.valueError "Must specify a post id or an md5, and not both.")) := by
  simp [getPost, h]

theorem c7_get_post_validation_witness :
    getPost BASE_API_URL (some 3) (some "abc") [] =
      ([], .error (.valueError "Must specify a post id or an md5, and not both.")) :=
  c7_get_post_validation BASE_API_URL (some 3) (some "abc") [] (by decide)

/-- C10: `get_post` called with `post_id = 0` and no md5 — and likewise
with an empty-string md5 and no id — raises `ValueError` and issues no
request: truthiness treats these supplied identifiers as absent. -/
theorem c10_get_post_falsy_identifiers (selfUrl : String) (resp : List PostDict) :
    getPost selfUrl (some 0) none resp =
      ([], .error (.valueError "Must specify a post id or an md5, and not both.")) ∧
    getPost selfUrl none (some "") resp =
      ([], .error (.valueError "Must specify a post id or an md5, and not both.")) := by
  constructor <;> simp [getPost, optIntTruthy, optStrTruthy]

/-- C8 (counterexample): `search_tags` with `name_pattern = "a%"` and
`after_id = 0` does not raise: `after_id = 0` is falsy, slips past the
combination check, and is still appended to the URL (the `is not None`
test), so a request carrying both parameters is issued and succeeds. -/
theorem c8_search_tags_after_id_zero_counterexample :
    (searchTags BASE_API_URL none 1 (some "a%") (some 0) none none []).fst =
      [BASE_API_URL ++ "&s=tag&name_pattern=a%&after_id=0&limit=1"] ∧
    (searchTags BASE_API_URL none 1 (some "a%") (some 0) none none []).snd = .ok [] := by
  decide

/-- C8 (amended): `search_tags` raises `ValueError` before any request
when `names` and `name_pattern` are both truthy (non-empty), and
independently when `name_pattern` is truthy and `after_id` is a nonzero
integer; a falsy value (empty list, empty string, or 0) supplied alongside
the other parameter bypasses the check. -/
theorem c8_search_tags_validation (selfUrl : String)
    (names : Option (List String)) (limit : Int)
    (name_pattern : Option String) (after_id : Option Int)
    (order order_by : Option String) (resp : List TagDict)
    (h : ((optListTruthy names && optStrTruthy name_pattern)
        || (optStrTruthy name_pattern && optIntTruthy after_id)) = true) :
    (searchTags selfUrl names limit name_pattern after_id order order_by resp).fst = [] ∧
    ((searchTags selfUrl names limit name_pattern after_id order order_by resp).snd =
        .error (.valueError "Must have one of names and name pattern") ∨
      (searchTags selfUrl names limit name_pattern after_id order order_by resp).snd =
        .error (.valueError "For some odd reason, name patterns and after ids do not work together")) := by
  cases h1 : (optListTruthy names && optStrTruthy name_pattern) with
  | true =>
    refine ⟨?_, Or.inl ?_⟩ <;> simp [searchTags, h1]
  | false =>
    have h2 : (optStrTruthy name_pattern && optIntTruthy after_id) = true := by
      rw [h1] at h
      simpa using h
    refine ⟨?_, Or.inr ?_⟩ <;> simp [searchTags, h1, h2]

theorem c8_search_tags_validation_witness :
    (searchTags BASE_API_URL none 1 (some "a%") (some 3) none none []).fst = [] ∧
    ((searchTags BASE_API_URL none 1 (some "a%") (some 3) none none []).snd =
        .error (.valueError "Must have one of names and name pattern") ∨
      (searchTags BASE_API_URL none 1 (some "a%") (some 3) none none []).snd =
        .error (.valueError "For some odd reason, name patterns and after ids do not work together")) :=
  c8_search_tags_validation BASE_API_URL none 1 (some "a%") (some 3) none none [] (by decide)

/-- C5: `get_post` queried by md5, when the first returned record maps to
a post whose hash differs from the requested one, returns the empty tuple
— no exception is raised and the mismatched post is not returned. -/
theorem c5_get_post_md5_mismatch (selfUrl X : String) (hX : X ≠ "")
    (d : PostDict) (rest : List PostDict) (p : Post)
    (hmk : mkPostFromDict d = .ok p) (hmd5 : d.md5 ≠ X) :
    getPost selfUrl none (some X) (d :: rest) =
      ([selfUrl ++ "&tags=md5:" ++ X ++ "&s=post"], .ok (.tuple [])) := by
  have hpmd5 : p.md5 = d.md5 := by
    unfold mkPostFromDict at hmk
    cases h : strptimePostFormat d.created_at with
    | ok ca =>
      rw [h, except_ok_bind] at hmk
      injection hmk with hmk
      subst hmk
      rfl
    | error e =>
      rw [h, except_error_bind] at hmk
      exact Except.noConfusion hmk
  have hmd5' : p.md5 ≠ X := hpmd5 ▸ hmd5
  simp [getPost, optIntTruthy, optStrTruthy, hX, hmk, hmd5', except_ok_bind]

theorem c5_get_post_md5_mismatch_witness :
    getPost BASE_API_URL none (some "zzz") [samplePostDict] =
      ([BASE_API_URL ++ "&tags=md5:" ++ "zzz" ++ "&s=post"], .ok (.tuple [])) :=
  c5_get_post_md5_mismatch BASE_API_URL "zzz" (by decide) samplePostDict []
    samplePost (by decide) (by decide)

/-- C9: in the response mappers, each string-encoded boolean field of a
post (`has_notes`, `has_comments`, `has_children`) is true exactly when
the raw value is the literal string `"true"` — any other string, including
`"True"`, `"1"` and `""`, yields false — and the 0/1-integer fields map a
nonzero value (in particular 1) to true and 0 to false (`post_locked` via
`bool(...)`, a tag's `ambiguous` via `bool(int(...))`). -/
theorem c9_boolean_coercion :
    (∀ d p, mkPostFromDict d = .ok p →
      p.has_notes = (d.has_notes == "true") ∧
      p.has_comments = (d.has_comments == "true") ∧
      p.has_children = (d.has_children == "true") ∧
      (p.post_locked = true ↔ d.post_locked ≠ 0)) ∧
    (∀ s : String, s ≠ "true" → (s == "true") = false) ∧
    (∀ t tag, mkTagFromDict t = .ok tag →
      (t.ambiguous = "1" → tag.ambiguous = true) ∧
      (t.ambiguous = "0" → tag.ambiguous = false)) := by
  refine ⟨?_, ?_, ?_⟩
  · intro d p hmk
    unfold mkPostFromDict at hmk
    cases h : strptimePostFormat d.created_at with
    | ok ca =>
      rw [h, except_ok_bind] at hmk
      injection hmk with hmk
      subst hmk
      refine ⟨rfl, rfl, rfl, ?_⟩
      simp
    | error e =>
      rw [h, except_error_bind] at hmk
      exact Except.noConfusion hmk
  · intro s hs
    simpa using hs
  · intro t tag hmk
    unfold mkTagFromDict at hmk
    cases hi : pyInt t.id with
    | error e =>
      rw [hi, except_error_bind] at hmk
      exact Except.noConfusion hmk
    | ok i =>
      rw [hi, except_ok_bind] at hmk
      cases hc : pyInt t.count with
      | error e =>
        rw [hc, except_error_bind] at hmk
        exact Except.noConfusion hmk
      | ok c =>
        rw [hc, except_ok_bind] at hmk
        cases ha : pyInt t.ambiguous with
        | error e =>
          rw [ha, except_error_bind] at hmk
          exact Except.noConfusion hmk
        | ok a =>
          rw [ha, except_ok_bind] at hmk
          injection hmk with hmk
          subst hmk
          constructor
          · intro h1
            rw [h1] at ha
            have ha1 : a = 1 := by
              simp [pyInt, pyStrip, pyStripList, pyIsSpace, pyIntDigits] at ha
              omega
            simp [ha1]
          · intro h0
            rw [h0] at ha
            have ha0 : a = 0 := by
              simp [pyInt, pyStrip, pyStripList, pyIsSpace, pyIntDigits] at ha
              omega
            simp [ha0]

theorem c9_boolean_coercion_witness :
    (samplePost.has_notes = (samplePostDict.has_notes == "true") ∧
      samplePost.has_comments = (samplePostDict.has_comments == "true") ∧
      samplePost.has_children = (samplePostDict.has_children == "true") ∧
      (samplePost.post_locked = true ↔ samplePostDict.post_locked ≠ 0)) ∧
    (("True" == "true") = false) ∧
    (sampleTagDict.ambiguous = "0" → sampleTag.ambiguous = false) :=
  ⟨c9_boolean_coercion.1 samplePostDict samplePost (by decide),
    c9_boolean_coercion.2.1 "True" (by decide),
    (c9_boolean_coercion.2.2 sampleTagDict sampleTag (by decide)).2⟩

/-- C6: `get_post_comments` normalizes the response shape: a bare single
`<comment>` element yields exactly what the same element yields as a
one-element list; a response with no comment elements (absent key or empty
list) yields the empty sequence; a successful single-element response has
length one, and its sole `Comment` is identical to the first `Comment`
built from any multi-element list starting with the same element. -/
theorem c6_comment_shape_normalization (selfUrl : String) (post : Post) :
    (∀ c, getPostComments selfUrl post (.single c) =
        getPostComments selfUrl post (.list [c])) ∧
    ((getPostComments selfUrl post .absent).snd = .ok []) ∧
    ((getPostComments selfUrl post (.list [])).snd = .ok []) ∧
    (∀ c l, (getPostComments selfUrl post (.single c)).snd = .ok l → l.length = 1) ∧
    (∀ c cs x xs, (getPostComments selfUrl post (.list (c :: cs))).snd = .ok (x :: xs) →
      (getPostComments selfUrl post (.single c)).snd = .ok [x]) := by
  have hcons : ∀ (f : CommentDict → Except PyErr Comment) a as,
      mapMExcept f (a :: as) =
        f a >>= fun b => mapMExcept f as >>= fun bs => .ok (b :: bs) :=
    fun _ _ _ => rfl
  refine ⟨fun c => rfl, rfl, rfl, ?_, ?_⟩
  · intro c l h
    simp only [getPostComments] at h
    cases hm : mkCommentFromDict c with
    | ok x =>
      simp [hcons, hm, except_ok_bind, mapMExcept, except_error_bind] at h
      simp [← h]
    | error e =>
      simp [hcons, hm, except_error_bind] at h
  · intro c cs x xs h
    simp only [getPostComments] at h ⊢
    rw [hcons] at h
    cases hm : mkCommentFromDict c with
    | ok y =>
      rw [hm, except_ok_bind] at h
      cases hr : (mapMExcept mkCommentFromDict cs) with
      | ok ys =>
        rw [hr, except_ok_bind] at h
        injection h with h
        simp only [List.cons.injEq] at h
        simp [hcons, hm, mapMExcept, except_ok_bind, h.1]
      | error e =>
        rw [hr, except_error_bind] at h
        exact Except.noConfusion h
    | error e =>
      rw [hm, except_error_bind] at h
      exact Except.noConfusion h

theorem c6_comment_shape_normalization_witness :
    (getPostComments BASE_API_URL samplePost (.single sampleCommentDict)).snd =
      .ok [sampleComment] :=
  (c6_comment_shape_normalization BASE_API_URL samplePost).2.2.2.2
    sampleCommentDict [] sampleComment [] (by decide)

/-- C3: the tag formatter trims surrounding whitespace, lowercases, and
replaces spaces with underscores in every entry (the normalised entries
are fixed points of `strip` and `lower` and contain no space); every
exclude entry begins with exactly one minus sign regardless of leading
minuses in the input, and normalising an already-formatted exclude tag is
idempotent; the include and exclude groups are each joined with `+` and
concatenated with a separating `+` even when the exclude group is empty
or absent. -/
theorem c3_format_tags_normalization :
    (∀ incl : List String,
      formatTags incl none =
        String.intercalate "+" (incl.map formatIncludeTag) ++ "+" ∧
      formatTags incl (some []) =
        String.intercalate "+" (incl.map formatIncludeTag) ++ "+") ∧
    (∀ incl excl : List String, excl ≠ [] →
      formatTags incl (some excl) =
        String.intercalate "+" (incl.map formatIncludeTag) ++ "+" ++
          String.intercalate "+" (excl.map formatExcludeTag)) ∧
    (∀ t : String, ((formatExcludeTag t).data.takeWhile (· = '-')).length = 1) ∧
    (∀ t : String, formatExcludeTag (formatExcludeTag t) = formatExcludeTag t) ∧
    (∀ t : String,
      pyLower (formatIncludeTag t) = formatIncludeTag t ∧
      ' ' ∉ (formatIncludeTag t).data ∧
      pyStrip (formatIncludeTag t) = formatIncludeTag t ∧
      pyLower (formatExcludeTag t) = formatExcludeTag t ∧
      ' ' ∉ (formatExcludeTag t).data) :=
  ⟨fun incl => ⟨formatTags_join_none incl, formatTags_join_empty incl⟩,
    formatTags_join_some,
    formatExcludeTag_one_minus,
    formatExcludeTag_idem,
    fun t => ⟨formatIncludeTag_lower_fixed t, formatIncludeTag_no_space t,
      formatIncludeTag_strip_fixed t, formatExcludeTag_lower_fixed t,
      formatExcludeTag_no_space t⟩⟩

theorem c3_format_tags_normalization_witness :
    formatTags ["Blue Sky"] (some ["--Bad tag"]) =
      String.intercalate "+" (List.map formatIncludeTag ["Blue Sky"]) ++ "+" ++
        String.intercalate "+" (List.map formatExcludeTag ["--Bad tag"]) :=
  c3_format_tags_normalization.2.1 ["Blue Sky"] ["--Bad tag"] (by decide)

end Gelbooru
